import Mathlib

/-!
Shallow embedding of `src/src/components/OrderForm.tsx` (GestionPedidoBCH),
the purchase-order form component.  JavaScript strings are modelled as Lean
`String` (a wrapper around `List Char`; `toLowerCase` is modelled by ASCII
lowercasing, which agrees with JS on the ASCII names involved here), JS
numbers as `ℤ` (quantities and CLP prices in this component are integers and
the arithmetic is `+`, `-`, `*` only, exact on these inputs), and JS
`undefined` / a thrown `TypeError` as `Option`.
-/

namespace OrderForm

/-- JS `s.toLowerCase()` (ASCII range, as used on the names in this app). -/
def toLowerStr (s : String) : String := String.mk (s.toList.map Char.toLower)

/-- JS `hay.includes(sub)`: `sub` occurs as a contiguous substring of `hay`. -/
def includesStr (hay sub : String) : Bool :=
  (List.range (hay.toList.length + 1)).any (fun i => sub.toList.isPrefixOf (hay.toList.drop i))

/-- JS `String.prototype.padStart(w, c)` on the underlying character list. -/
def padStart (w : Nat) (c : Char) (l : List Char) : List Char :=
  List.replicate (w - l.length) c ++ l

/-- JS `s.split(sep)` for a single-character separator. -/
def splitOnChar (sep : Char) : List Char → List (List Char)
  | [] => [[]]
  | c :: cs =>
    if c = sep then [] :: splitOnChar sep cs
    else
      match splitOnChar sep cs with
      | [] => [[c]]
      | r :: rs => (c :: r) :: rs

/-- Value of a decimal digit character. -/
def digitVal (c : Char) : Nat := c.toNat - 48

/-- Leading decimal digits of a character list, `none` when there are none
(the `NaN` case of JS `parseInt`). -/
def parseDigits (l : List Char) : Option Nat :=
  let ds := l.takeWhile Char.isDigit
  if ds.isEmpty then none
  else some (ds.foldl (fun a c => 10 * a + digitVal c) 0)

/-- The ECMA-262 WhiteSpace and LineTerminator characters trimmed by
`parseInt`: TAB, LF, VT, FF, CR, SP, NBSP, OGHAM SPACE, the U+2000-200A
spaces, LS, PS, NNBSP, MMSP, IDEOGRAPHIC SPACE and ZWNBSP. -/
def isJsWhitespace (c : Char) : Bool :=
  c.toNat = 0x9 || c.toNat = 0xA || c.toNat = 0xB || c.toNat = 0xC || c.toNat = 0xD ||
  c.toNat = 0x20 || c.toNat = 0xA0 || c.toNat = 0x1680 ||
  (0x2000 ≤ c.toNat && c.toNat ≤ 0x200A) ||
  c.toNat = 0x2028 || c.toNat = 0x2029 || c.toNat = 0x202F || c.toNat = 0x205F ||
  c.toNat = 0x3000 || c.toNat = 0xFEFF

/-- Hexadecimal digit test, as accepted by `parseInt` with radix 16. -/
def isHexDigitChar (c : Char) : Bool :=
  c.isDigit || (97 ≤ c.toNat && c.toNat ≤ 102) || (65 ≤ c.toNat && c.toNat ≤ 70)

/-- Value of a hexadecimal digit character. -/
def hexVal (c : Char) : Nat :=
  if c.isDigit then c.toNat - 48
  else if 97 ≤ c.toNat then c.toNat - 87
  else c.toNat - 55

/-- Leading hexadecimal digits of a character list, `none` when there are
none (the `NaN` case of JS `parseInt` after a `0x` prefix). -/
def parseHexDigits (l : List Char) : Option Nat :=
  let ds := l.takeWhile isHexDigitChar
  if ds.isEmpty then none
  else some (ds.foldl (fun a c => 16 * a + hexVal c) 0)

/-- The radix step of radix-less JS `parseInt`, after whitespace and sign
are stripped: a `0x`/`0X` prefix selects radix 16 (and its digits must
follow), anything else parses leading decimal digits. -/
def jsParseIntCore (l : List Char) : Option Nat :=
  match l with
  | '0' :: 'x' :: rest => parseHexDigits rest
  | '0' :: 'X' :: rest => parseHexDigits rest
  | _ => parseDigits l

/-- JS `parseInt(s)` with no radix argument, as called at OrderForm.tsx
line 26: trim leading ECMA-262 whitespace, read an optional sign, detect a
`0x`/`0X` hex prefix (radix 16) or fall back to radix 10, then take the
longest run of digits in that radix; `none` models `NaN`. -/
def jsParseInt (l : List Char) : Option Int :=
  match l.dropWhile isJsWhitespace with
  | '-' :: rest => (jsParseIntCore rest).map (fun n => -(n : Int))
  | '+' :: rest => (jsParseIntCore rest).map (fun n => (n : Int))
  | l' => (jsParseIntCore l').map (fun n => (n : Int))

/-- JS `String(n)` for an integer. -/
def intToStr (i : Int) : String :=
  if i < 0 then "-" ++ Nat.repr i.natAbs else Nat.repr i.toNat

/-- JS `String(x)` for a number that may be `NaN` (`none`). -/
def jsNumToStr : Option Int → String
  | none => "NaN"
  | some i => intToStr i

/--
Function `generateOrderNumber` (OrderForm.tsx lines 24-28):
```
if (!lastOrderNumber) return 'ORD-001';
const currentNumber = parseInt(lastOrderNumber.split('-')[1]);
return `ORD-${String(currentNumber + 1).padStart(3, '0')}`;
```
`none` models an absent `lastOrderNumber`; note that the JS guard
`!lastOrderNumber` is also true for the empty string.  Indexing `[1]` past
the end of the split yields `undefined`, whose `parseInt` is `NaN` (`none`).
-/
def generateOrderNumber (lastOrderNumber : Option String) : String :=
  match lastOrderNumber with
  | none => "ORD-001"
  | some last =>
    if last = "" then "ORD-001"
    else
      let seg : Option (List Char) := (splitOnChar '-' last.toList).get? 1
      let currentNumber : Option Int := seg.bind jsParseInt
      String.mk ("ORD-".toList ++ padStart 3 '0' (jsNumToStr (currentNumber.map (fun n => n + 1))).toList)

/-- The string `ORD-` followed by the decimal digits of `n` zero-padded to width 3: the
`ORD-###` format of the spec (statement-side helper). -/
def ordFormat (n : Nat) : String :=
  String.mk ("ORD-".toList ++ padStart 3 '0' (Nat.repr n).toList)

/-- A supplier record (`Supplier` in `../types`), as consumed by the form. -/
structure Supplier where
  id : String
  name : String
  insumo : String
  rut : Option String
  email : Option String
  additionalInfo : Option String
  deriving DecidableEq, Repr

/-- A product record (`Product` in `../types`), as consumed by the form. -/
structure Product where
  id : String
  name : String
  price : Int
  supplier : String
  quantity : Int
  unit : String
  sku : String
  category : String
  deriving DecidableEq, Repr

/-- A committed line item (`OrderItem` in `../types`). -/
structure OrderItem where
  productId : String
  name : String
  quantity : Int
  price : Int
  subtotal : Int
  deriving DecidableEq, Repr

/-- One entry of the draft's status history. -/
structure StatusEntry where
  status : String
  timestamp : String
  deriving DecidableEq, Repr

/-- The draft order being built (`formData`, a `Partial<Order>` with every
field the component initialises present). -/
structure Order where
  orderNumber : String
  supplier : String
  status : String
  items : List OrderItem
  total : Int
  createdAt : String
  estimatedDelivery : String
  deliveryAddress : String
  paymentMethod : String
  notes : String
  statusHistory : List StatusEntry
  deriving DecidableEq, Repr

/-- The line-item composer's transient state (`newItem`). -/
structure NewItem where
  name : String
  quantity : Int
  price : Int
  deriving DecidableEq, Repr

/-- The slice of component state touched by `addItem`: the draft, the
composer, and the product search string. -/
structure ComposerState where
  formData : Order
  newItem : NewItem
  productSearch : String
  deriving DecidableEq, Repr

/-- The slice of component state touched by the supplier-change `useEffect`
(OrderForm.tsx lines 64-76): the product catalog, the draft's selected
supplier, the derived candidate set, the composer, and the product search
string. -/
structure PickerState where
  products : List Product
  supplier : String
  filteredProducts : List Product
  newItem : NewItem
  productSearch : String
  deriving DecidableEq, Repr

/-- Outcome of a submission attempt: what was passed to `onSave` (if
anything) and whether `onClose` ran. -/
structure SubmitResult where
  saved : Option Order
  closed : Bool
  deriving DecidableEq, Repr

/--
Initial `formData` state (OrderForm.tsx lines 30-47).  `orderNumber` is
`generateOrderNumber()` of the optional `lastOrderNumber` prop; `now` stands
for `new Date().toISOString()` at mount time.
-/
def initialFormData (lastOrderNumber : Option String) (now : String) : Order :=
  { orderNumber := generateOrderNumber lastOrderNumber
    supplier := ""
    status := "pending"
    items := []
    total := 0
    createdAt := now
    estimatedDelivery := ""
    deliveryAddress := "Av. Camilo Henríquez 3692"
    paymentMethod := ""
    notes := ""
    statusHistory := [{ status := "pending", timestamp := now }] }

/-- Initial `newItem` composer state (OrderForm.tsx lines 49-53). -/
def initialNewItem : NewItem := { name := "", quantity := 1, price := 0 }

/--
Derived `filteredSuppliers` (OrderForm.tsx lines 97-99):
```
suppliers.filter(supplier => supplier.name.toLowerCase().includes(supplierSearch.toLowerCase()))
```
-/
def filteredSuppliers (suppliers : List Supplier) (supplierSearch : String) : List Supplier :=
  suppliers.filter (fun supplier => includesStr (toLowerStr supplier.name) (toLowerStr supplierSearch))

/--
Derived `searchFilteredProducts` (OrderForm.tsx lines 102-104): the supplier-filtered
candidate set further filtered by the product search string.
-/
def searchFilteredProducts (filteredProducts : List Product) (productSearch : String) : List Product :=
  filteredProducts.filter (fun product => includesStr (toLowerStr product.name) (toLowerStr productSearch))

/--
The supplier-change `useEffect` (OrderForm.tsx lines 64-76): recompute the
candidate set from the (new) selected supplier (`[]` when none is selected,
i.e. when `formData.supplier` is falsy), clear the staged product name and
price, and empty the product search string.
-/
def supplierChangeEffect (s : PickerState) : PickerState :=
  { s with
    filteredProducts :=
      if s.supplier = "" then []
      else s.products.filter (fun product => toLowerStr product.supplier = toLowerStr s.supplier)
    newItem := { s.newItem with name := "", price := 0 }
    productSearch := "" }

/-- The enabling condition of the "add item" button (OrderForm.tsx line 391,
the negation of `!newItem.name || !newItem.quantity || !newItem.price`):
all of name, quantity, price are truthy. -/
def addEnabled (ni : NewItem) : Bool :=
  !(ni.name = "") && !(ni.quantity = 0) && !(ni.price = 0)

/--
Handler `addItem` (OrderForm.tsx lines 122-145): guarded by the same truthiness test
as the button; on commit it appends a line item with
`subtotal = quantity * price`, adds that subtotal to the draft total, and
resets the composer (name `""`, quantity `1`, price `0`) and the product
search string.  `pid` stands for the `Date.now().toString()` temporary id.
-/
def addItem (s : ComposerState) (pid : String) : ComposerState :=
  if s.newItem.name = "" ∨ s.newItem.quantity = 0 ∨ s.newItem.price = 0 then s
  else
    let item : OrderItem :=
      { productId := pid
        name := s.newItem.name
        quantity := s.newItem.quantity
        price := s.newItem.price
        subtotal := s.newItem.quantity * s.newItem.price }
    { formData :=
        { s.formData with
          items := s.formData.items ++ [item]
          total := s.formData.total + item.subtotal }
      newItem := { name := "", quantity := 1, price := 0 }
      productSearch := "" }

/-- JS array indexing `l[i]`: `undefined` (`none`) outside `0 ≤ i < length`. -/
def jsIndex (l : List α) (i : Int) : Option α :=
  if h : 0 ≤ i ∧ i.toNat < l.length then some (l.get ⟨i.toNat, h.2⟩) else none

/-- JS `items.filter((_, i) => i !== index)`: keep the elements whose
position differs from `index`. -/
def filterIdxNe (l : List α) (index : Int) : List α :=
  (l.enum.filter (fun p => (p.1 : Int) ≠ index)).map Prod.snd

/--
Handler `removeItem` (OrderForm.tsx lines 147-156): reads `items[index].subtotal`
(a `TypeError`, modelled as `none`, when the index is out of range), then
drops the element at that position and subtracts the read subtotal from the
total.
-/
def removeItem (fd : Order) (index : Int) : Option Order :=
  match jsIndex fd.items index with
  | none => none
  | some removedItem =>
    some { fd with
           items := filterIdxNe fd.items index
           total := fd.total - removedItem.subtotal }

/--
Handler `handleSubmit` (OrderForm.tsx lines 158-167): reject (alert, stay open) when
supplier, delivery address or payment method is falsy or the item list is
empty; otherwise pass the draft to `onSave` and call `onClose`.
-/
def handleSubmit (fd : Order) : SubmitResult :=
  if fd.supplier = "" ∨ fd.deliveryAddress = "" ∨ fd.paymentMethod = "" ∨ fd.items = [] then
    { saved := none, closed := false }
  else
    { saved := some fd, closed := true }

/-- A user action on the draft's item list: committing the composer with the
given contents, or removing the item at an index. -/
inductive Op where
  | add (name : String) (quantity price : Int) (pid : String)
  | remove (index : Int)
  deriving DecidableEq, Repr

/-- Apply one action to the draft, through the component's `addItem` /
`removeItem` handlers.  `none` models the `TypeError` of an out-of-range
removal. -/
def applyOp (fd : Order) : Op → Option Order
  | Op.add name q p pid =>
    some (addItem { formData := fd, newItem := { name := name, quantity := q, price := p }, productSearch := "" } pid).formData
  | Op.remove i => removeItem fd i

/-- Run a sequence of item-list actions from a given draft, stopping at the
first error. -/
def runOps (fd : Order) : List Op → Option Order
  | [] => some fd
  | op :: ops =>
    match applyOp fd op with
    | none => none
    | some fd1 => runOps fd1 ops

/-- Sum of the line items' stored subtotals. -/
def sumSubtotals (items : List OrderItem) : Int :=
  (items.map OrderItem.subtotal).sum

/-- The draft invariant of the spec: the stored total equals the sum of the
stored subtotals. -/
def TotalInv (fd : Order) : Prop :=
  fd.total = sumSubtotals fd.items

/-! ### Helper lemmas -/

/-- Boolean `List.isPrefixOf` decides `List.IsPrefix` (over characters). -/
theorem isPrefixOf_eq_true (l1 : List Char) :
    ∀ l2 : List Char, l1.isPrefixOf l2 = true ↔ l1 <+: l2 := by
  induction l1 with
  | nil =>
    intro l2
    simp [List.isPrefixOf]
  | cons a as ih =>
    intro l2
    cases l2 with
    | nil =>
      simp only [List.isPrefixOf, Bool.false_eq_true, false_iff]
      rintro ⟨t, ht⟩
      exact List.noConfusion ht
    | cons b bs =>
      simp only [List.isPrefixOf, Bool.and_eq_true, beq_iff_eq, ih bs, List.cons_prefix_cons]

/-- Boolean `includesStr` decides substring occurrence. -/
theorem includesStr_iff (hay sub : String) :
    includesStr hay sub = true ↔ sub.toList <:+: hay.toList := by
  unfold includesStr
  rw [List.any_eq_true]
  constructor
  · rintro ⟨i, hmem, hdec⟩
    obtain ⟨r, hr⟩ := (isPrefixOf_eq_true sub.toList (hay.toList.drop i)).mp hdec
    refine ⟨hay.toList.take i, r, ?_⟩
    calc hay.toList.take i ++ sub.toList ++ r
        = hay.toList.take i ++ (sub.toList ++ r) := by rw [List.append_assoc]
      _ = hay.toList.take i ++ hay.toList.drop i := by rw [hr]
      _ = hay.toList := List.take_append_drop i hay.toList
  · rintro ⟨s, t, hst⟩
    refine ⟨s.length, ?_, ?_⟩
    · rw [List.mem_range, ← hst]
      simp
      omega
    · refine (isPrefixOf_eq_true _ _).mpr ⟨t, ?_⟩
      rw [← hst, List.append_assoc, List.drop_left]

/-- The JS index-based filter of `removeItem`, over `enumFrom`: it erases the
element at position `i - n` (and keeps everything when `i < n`). -/
theorem enumFrom_filterIdx (i : Int) :
    ∀ (l : List α) (n : Nat),
      ((List.enumFrom n l).filter (fun p => decide ((p.1 : Int) ≠ i))).map Prod.snd =
        if i < (n : Int) then l else l.eraseIdx (i - (n : Int)).toNat := by
  intro l
  induction l with
  | nil =>
    intro n
    simp [List.enumFrom, List.eraseIdx]
  | cons a t ih =>
    intro n
    simp only [List.enumFrom, List.filter_cons]
    by_cases hni : ((n : Int) ≠ i)
    · rw [if_pos (by simpa using hni)]
      simp only [List.map_cons, ih (n + 1)]
      by_cases hlt : i < (n : Int)
      · rw [if_pos (by push_cast; omega), if_pos hlt]
      · rw [if_neg (by push_cast; omega), if_neg hlt]
        have hgt : (n : Int) < i := by omega
        have htn : (i - (n : Int)).toNat = (i - ((n : Int) + 1)).toNat + 1 := by omega
        rw [htn]
        simp [List.eraseIdx]
    · rw [if_neg (by simpa using hni)]
      have hi : i = (n : Int) := by omega
      rw [ih (n + 1), if_pos (by push_cast; omega), hi, if_neg (by omega)]
      simp [List.eraseIdx]

/-- Function `filterIdxNe` is `eraseIdx` (at a nonnegative index; a negative index
removes nothing). -/
theorem filterIdxNe_eq (l : List α) (i : Int) :
    filterIdxNe l i = if i < 0 then l else l.eraseIdx i.toNat := by
  have h := enumFrom_filterIdx i l 0
  simpa [filterIdxNe, List.enum] using h

theorem sumSubtotals_append (l1 l2 : List OrderItem) :
    sumSubtotals (l1 ++ l2) = sumSubtotals l1 + sumSubtotals l2 := by
  simp [sumSubtotals]

/-- Erasing the element at an in-range position subtracts exactly its
subtotal from the sum. -/
theorem sumSubtotals_eraseIdx :
    ∀ (l : List OrderItem) (i : Nat) (h : i < l.length),
      sumSubtotals (l.eraseIdx i) = sumSubtotals l - (l.get ⟨i, h⟩).subtotal := by
  intro l
  induction l with
  | nil => intro i h; simp at h
  | cons a t ih =>
    intro i h
    cases i with
    | zero =>
      simp [sumSubtotals, List.eraseIdx]
    | succ j =>
      have hj : j < t.length := Nat.lt_of_succ_lt_succ h
      have hrec := ih j hj
      have hget : (a :: t).get ⟨j + 1, h⟩ = t.get ⟨j, hj⟩ := rfl
      simp only [List.eraseIdx, sumSubtotals, List.map_cons, List.sum_cons, hget] at hrec ⊢
      omega

theorem get_append_singleton (l : List α) (a : α) (h : l.length < (l ++ [a]).length) :
    (l ++ [a]).get ⟨l.length, h⟩ = a := by
  induction l with
  | nil => rfl
  | cons x t ih => exact ih (by simp)

theorem eraseIdx_append_singleton (l : List α) (a : α) :
    (l ++ [a]).eraseIdx l.length = l := by
  induction l with
  | nil => rfl
  | cons x t ih => simp [List.eraseIdx, ih]

/-- Function `jsIndex` succeeds exactly on in-range indices, returning that element. -/
theorem jsIndex_eq_some {l : List α} {i : Int} {a : α} (h : jsIndex l i = some a) :
    0 ≤ i ∧ ∃ hlt : i.toNat < l.length, a = l.get ⟨i.toNat, hlt⟩ := by
  unfold jsIndex at h
  split at h
  · rename_i hc
    exact ⟨hc.1, hc.2, (Option.some.injEq _ _).mp h.symm⟩
  · exact absurd h (by simp)

/-- One step of `applyOp` preserves the total/sum invariant. -/
theorem totalInv_applyOp {fd fd1 : Order} {op : Op}
    (hinv : TotalInv fd) (h : applyOp fd op = some fd1) : TotalInv fd1 := by
  cases op with
  | add name q p pid =>
    simp only [applyOp, Option.some.injEq] at h
    subst h
    unfold addItem
    by_cases hg : name = "" ∨ q = 0 ∨ p = 0
    · simpa [hg] using hinv
    · simp only [if_neg hg]
      unfold TotalInv at hinv ⊢
      simp [sumSubtotals_append, sumSubtotals, hinv]
  | remove i =>
    simp only [applyOp] at h
    unfold removeItem at h
    cases hj : jsIndex fd.items i with
    | none => rw [hj] at h; exact absurd h (by simp)
    | some removed =>
      rw [hj] at h
      obtain ⟨hposi, hlt, hrm⟩ := jsIndex_eq_some hj
      simp only [Option.some.injEq] at h
      subst h
      unfold TotalInv at hinv ⊢
      simp only [filterIdxNe_eq, if_neg (by omega : ¬i < 0)]
      rw [sumSubtotals_eraseIdx fd.items i.toNat hlt, hrm, hinv]

/-- Every draft reachable by `runOps` from an invariant-satisfying draft
still satisfies the invariant. -/
theorem runOps_totalInv :
    ∀ (ops : List Op) (fd fd1 : Order),
      TotalInv fd → runOps fd ops = some fd1 → TotalInv fd1 := by
  intro ops
  induction ops with
  | nil =>
    intro fd fd1 hinv h
    simp only [runOps, Option.some.injEq] at h
    exact h ▸ hinv
  | cons op rest ih =>
    intro fd fd1 hinv h
    unfold runOps at h
    cases happ : applyOp fd op with
    | none => rw [happ] at h; exact absurd h (by simp)
    | some fdmid =>
      rw [happ] at h
      exact ih fdmid fd1 (totalInv_applyOp hinv happ) h

/-! ### Concrete fixtures used by witnesses and counterexamples -/

/-- The supplier list of the spec's search example. -/
def aceSuppliers : List Supplier :=
  [ { id := "s1", name := "Acme Foods", insumo := "alimentos", rut := none, email := none, additionalInfo := none },
    { id := "s2", name := "Ace Hardware", insumo := "ferretería", rut := none, email := none, additionalInfo := none },
    { id := "s3", name := "Best Co", insumo := "varios", rut := none, email := none, additionalInfo := none } ]

/-- An example catalog product. -/
def exProduct : Product :=
  { id := "p1", name := "Harina", price := 1500, supplier := "Ace Hardware",
    quantity := 10, unit := "kg", sku := "SKU-1", category := "insumo" }

/-- An example committed line item (quantity 3 at price 1500). -/
def exItem : OrderItem :=
  { productId := "p1", name := "Harina", quantity := 3, price := 1500, subtotal := 4500 }

/-- An example picker-state before a supplier change. -/
def exPicker : PickerState :=
  { products := [exProduct], supplier := "ace hardware", filteredProducts := [],
    newItem := { name := "Tornillos", quantity := 2, price := 900 }, productSearch := "Torn" }

/-- An example composer state ready to commit quantity 3 at price 1500. -/
def exComposer : ComposerState :=
  { formData := initialFormData none "t0"
    newItem := { name := "Harina", quantity := 3, price := 1500 }
    productSearch := "Harina" }

/-- An example fully-filled draft that passes validation. -/
def exDraft : Order :=
  { initialFormData none "t0" with
    supplier := "Ace Hardware", paymentMethod := "Efectivo", items := [exItem], total := 4500 }

/-! ### The claims -/

/-- C1: for every sequence of add-item and remove-item operations applied to
a fresh draft (each remove given an index into the draft's item list, i.e.
every sequence on which the handlers do not fault), after every operation the
draft's total equals the sum of the subtotals of its line items. -/
theorem c1_total_invariant (lastOrderNumber : Option String) (now : String)
    (ops : List Op) (fd1 : Order)
    (h : runOps (initialFormData lastOrderNumber now) ops = some fd1) :
    fd1.total = sumSubtotals fd1.items :=
  runOps_totalInv ops _ fd1 (by simp [TotalInv, initialFormData, sumSubtotals]) h

set_option maxRecDepth 4000 in
theorem c1_total_invariant_witness :
    runOps (initialFormData none "t0") [Op.add "Harina" 3 1500 "p1", Op.remove 0] =
        some (initialFormData none "t0") ∧
    (initialFormData none "t0").total = sumSubtotals (initialFormData none "t0").items := by
  have hrun : runOps (initialFormData none "t0") [Op.add "Harina" 3 1500 "p1", Op.remove 0] =
      some (initialFormData none "t0") := by decide
  exact ⟨hrun, c1_total_invariant none "t0" _ _ hrun⟩

/-- C2: after a supplier change the staged product name and price are
cleared, the product search string is emptied, and the candidate set holds
exactly the products whose supplier equals the newly selected supplier
(case-insensitively), empty when no supplier is selected. -/
theorem c2_supplier_change_cascade (s : PickerState) :
    (supplierChangeEffect s).newItem.name = "" ∧
    (supplierChangeEffect s).newItem.price = 0 ∧
    (supplierChangeEffect s).productSearch = "" ∧
    ∀ p : Product,
      p ∈ (supplierChangeEffect s).filteredProducts ↔
        s.supplier ≠ "" ∧ p ∈ s.products ∧ toLowerStr p.supplier = toLowerStr s.supplier := by
  refine ⟨rfl, rfl, rfl, fun p => ?_⟩
  simp only [supplierChangeEffect]
  by_cases h : s.supplier = ""
  · simp [h]
  · simp [h, List.mem_filter, and_assoc]

theorem c2_supplier_change_cascade_witness :
    (supplierChangeEffect exPicker).newItem.name = "" ∧
    (supplierChangeEffect exPicker).newItem.price = 0 ∧
    (supplierChangeEffect exPicker).productSearch = "" ∧
    exProduct ∈ (supplierChangeEffect exPicker).filteredProducts := by
  obtain ⟨h1, h2, h3, h4⟩ := c2_supplier_change_cascade exPicker
  exact ⟨h1, h2, h3, (h4 exProduct).mpr ⟨by decide, by decide, by decide⟩⟩

/-- C3: submission is rejected (nothing saved, form stays open) exactly when
supplier, delivery address or payment method is empty or the item list is
empty; otherwise the draft goes to the save callback and the form closes. -/
theorem c3_submit_validation (fd : Order) :
    (handleSubmit fd = { saved := none, closed := false } ↔
      fd.supplier = "" ∨ fd.deliveryAddress = "" ∨ fd.paymentMethod = "" ∨ fd.items = []) ∧
    (handleSubmit fd = { saved := some fd, closed := true } ↔
      ¬(fd.supplier = "" ∨ fd.deliveryAddress = "" ∨ fd.paymentMethod = "" ∨ fd.items = [])) := by
  unfold handleSubmit
  by_cases h : fd.supplier = "" ∨ fd.deliveryAddress = "" ∨ fd.paymentMethod = "" ∨ fd.items = []
  · simp [h]
  · simp [h]

theorem c3_submit_validation_witness :
    handleSubmit exDraft = { saved := some exDraft, closed := true } ∧
    handleSubmit (initialFormData none "t0") = { saved := none, closed := false } :=
  ⟨((c3_submit_validation exDraft).2).mpr (by decide),
   ((c3_submit_validation (initialFormData none "t0")).1).mpr (by decide)⟩

set_option maxRecDepth 100000 in
set_option maxHeartbeats 1000000 in
/-- C4: the generator returns "ORD-001" with no previous number; for an
`ORD-###` previous number it parses the suffix, increments and zero-pads to
width 3; in particular "ORD-007" maps to "ORD-008" and "ORD-099" to
"ORD-100". -/
theorem c4_generate_order_number :
    generateOrderNumber none = "ORD-001" ∧
    generateOrderNumber (some "ORD-007") = "ORD-008" ∧
    generateOrderNumber (some "ORD-099") = "ORD-100" ∧
    ∀ n : Nat, n < 1000 → generateOrderNumber (some (ordFormat n)) = ordFormat (n + 1) :=
  ⟨rfl, by decide, by decide, by decide⟩

theorem c4_generate_order_number_witness :
    generateOrderNumber (some (ordFormat 7)) = ordFormat 8 :=
  c4_generate_order_number.2.2.2 7 (by decide)

/-- C5 counterexample: "Ace" is not a substring of "Acme Foods", so the
filter over ["Acme Foods", "Ace Hardware", "Best Co"] yields only
["Ace Hardware"], not the claimed ["Acme Foods", "Ace Hardware"]. -/
theorem c5_counterexample :
    (filteredSuppliers aceSuppliers "Ace").map Supplier.name = ["Ace Hardware"] ∧
    (["Ace Hardware"] : List String) ≠ ["Acme Foods", "Ace Hardware"] := by
  decide

/-- C5 (amended): the supplier filter is a case-insensitive substring match
of the search string against supplier names over the full list; filtering
"Ace" over ["Acme Foods", "Ace Hardware", "Best Co"] yields exactly
["Ace Hardware"]. -/
theorem c5_supplier_filter (suppliers : List Supplier) (search : String) :
    (∀ s : Supplier,
        s ∈ filteredSuppliers suppliers search ↔
          s ∈ suppliers ∧ (toLowerStr search).toList <:+: (toLowerStr s.name).toList) ∧
    (filteredSuppliers aceSuppliers "Ace").map Supplier.name = ["Ace Hardware"] := by
  refine ⟨fun s => ?_, by decide⟩
  simp [filteredSuppliers, List.mem_filter, includesStr_iff]

theorem c5_supplier_filter_witness :
    aceSuppliers.get ⟨1, by decide⟩ ∈ filteredSuppliers aceSuppliers "Ace" :=
  ((c5_supplier_filter aceSuppliers "Ace").1 _).mpr ⟨by decide, by decide⟩

/-- C6: "add item" is enabled exactly when name, quantity and price are all
truthy; a disabled commit is a no-op; an enabled commit appends a line item
with subtotal = quantity × price, raises the total by exactly that subtotal,
and resets the composer (name and search empty, price 0, quantity 1). -/
theorem c6_add_item (s : ComposerState) (pid : String) :
    (addEnabled s.newItem = true ↔
      s.newItem.name ≠ "" ∧ s.newItem.quantity ≠ 0 ∧ s.newItem.price ≠ 0) ∧
    (addEnabled s.newItem = false → addItem s pid = s) ∧
    (addEnabled s.newItem = true →
      (addItem s pid).formData.items =
        s.formData.items ++
          [{ productId := pid, name := s.newItem.name, quantity := s.newItem.quantity,
             price := s.newItem.price, subtotal := s.newItem.quantity * s.newItem.price }] ∧
      (addItem s pid).formData.total = s.formData.total + s.newItem.quantity * s.newItem.price ∧
      (addItem s pid).newItem = { name := "", quantity := 1, price := 0 } ∧
      (addItem s pid).productSearch = "") := by
  refine ⟨by simp [addEnabled, and_assoc], fun hdis => ?_, fun hen => ?_⟩
  · have h : s.newItem.name = "" ∨ s.newItem.quantity = 0 ∨ s.newItem.price = 0 := by
      by_contra hc
      push_neg at hc
      have ht : addEnabled s.newItem = true := by
        simp [addEnabled, hc.1, hc.2.1, hc.2.2]
      simp [hdis] at ht
    simp [addItem, h]
  · have h : ¬(s.newItem.name = "" ∨ s.newItem.quantity = 0 ∨ s.newItem.price = 0) := by
      simpa [addEnabled, not_or, and_assoc] using hen
    simp [addItem, h]

theorem c6_add_item_witness :
    (addItem exComposer "p1").formData.items = exComposer.formData.items ++ [exItem] ∧
    (addItem exComposer "p1").formData.total = exComposer.formData.total + 4500 ∧
    (addItem exComposer "p1").newItem = { name := "", quantity := 1, price := 0 } ∧
    (addItem exComposer "p1").productSearch = "" := by
  obtain ⟨h1, h2, h3, h4⟩ := (c6_add_item exComposer "p1").2.2 (by decide)
  exact ⟨h1, h2, h3, h4⟩

/-- C7: removing an in-range index deletes exactly that item (the others kept
in order) and lowers the total by exactly its subtotal; removing a just-added
item restores the prior total. -/
theorem c7_remove_item (fd : Order) (i : Nat) (h : i < fd.items.length) :
    removeItem fd (i : Int) =
      some { fd with
             items := fd.items.eraseIdx i
             total := fd.total - (fd.items.get ⟨i, h⟩).subtotal } ∧
    ∀ (fd0 : Order) (item : OrderItem),
      (removeItem
          { fd0 with items := fd0.items ++ [item], total := fd0.total + item.subtotal }
          (fd0.items.length : Int)).map Order.total = some fd0.total := by
  constructor
  · have hc : 0 ≤ (i : Int) ∧ ((i : Int)).toNat < fd.items.length := by
      constructor
      · exact Int.natCast_nonneg i
      · simpa [Int.toNat_natCast] using h
    have hneg : ¬((i : Int) < 0) := by omega
    unfold removeItem jsIndex
    rw [dif_pos hc]
    simp only [filterIdxNe_eq, if_neg hneg, Int.toNat_natCast]
  · intro fd0 item
    have hc : 0 ≤ (fd0.items.length : Int) ∧
        ((fd0.items.length : Int)).toNat < (fd0.items ++ [item]).length := by
      constructor
      · exact Int.natCast_nonneg _
      · simp [Int.toNat_natCast]
    unfold removeItem jsIndex
    rw [dif_pos hc]
    simp only [Option.map_some, Option.some.injEq, Int.toNat_natCast]
    rw [get_append_singleton fd0.items item (by simp)]
    simp

theorem c7_remove_item_witness :
    removeItem exDraft (0 : Int) = some { exDraft with items := [], total := 0 } ∧
    (removeItem
        { initialFormData none "t0" with
          items := (initialFormData none "t0").items ++ [exItem],
          total := (initialFormData none "t0").total + exItem.subtotal }
        ((initialFormData none "t0").items.length : Int)).map Order.total =
      some (initialFormData none "t0").total := by
  have hc7 := c7_remove_item exDraft 0 (by decide)
  exact ⟨hc7.1, hc7.2 (initialFormData none "t0") exItem⟩

/-- C8 counterexample: the empty string lacks any parsable numeric suffix,
yet the generator falls back to "ORD-001" (the JS guard `!lastOrderNumber`
is true for `""`), rather than producing the NaN result. -/
theorem c8_counterexample :
    ((splitOnChar '-' ("" : String).toList).get? 1).bind jsParseInt = none ∧
    generateOrderNumber (some "") = "ORD-001" ∧
    ("ORD-001" : String) ≠ "ORD-NaN" := by
  decide

/-- C8 (amended): for every NON-EMPTY previous-order-number string whose
segment after the first "-" has no parsable integer, the parse failure
propagates as NaN into the produced result, giving "ORD-NaN" rather than a
loud failure or the "ORD-001" fallback (the empty string alone takes the
"no previous number" fallback). -/
theorem c8_nan_propagation (s : String) (hne : s ≠ "")
    (hparse : ((splitOnChar '-' s.toList).get? 1).bind jsParseInt = none) :
    generateOrderNumber (some s) = "ORD-NaN" := by
  simp only [generateOrderNumber]
  rw [if_neg hne]
  simp only [hparse]
  decide

theorem c8_nan_propagation_witness :
    generateOrderNumber (some "ORD-XYZ") = "ORD-NaN" :=
  c8_nan_propagation "ORD-XYZ" (by decide) (by decide)

/-- C9: an out-of-range removal index is not a silent no-op: the handler
reads `items[index].subtotal` of a missing element, so the embedded
operation takes the error branch (`none`) instead of returning the draft
unchanged. -/
theorem c9_remove_out_of_range (fd : Order) (i : Int)
    (h : i < 0 ∨ (fd.items.length : Int) ≤ i) :
    removeItem fd i = none ∧ ∀ fd1 : Order, removeItem fd i ≠ some fd1 := by
  have hn : ¬(0 ≤ i ∧ i.toNat < fd.items.length) := by omega
  have hnone : removeItem fd i = none := by
    unfold removeItem jsIndex
    rw [dif_neg hn]
  exact ⟨hnone, fun fd1 => by simp [hnone]⟩

theorem c9_remove_out_of_range_witness :
    removeItem exDraft 5 = none ∧ removeItem exDraft (-1) = none :=
  ⟨(c9_remove_out_of_range exDraft 5 (by decide)).1,
   (c9_remove_out_of_range exDraft (-1) (by decide)).1⟩

/-- C10: a freshly opened draft presets the delivery address to the
non-empty constant "Av. Camilo Henríquez 3692", so the validator's
delivery-address condition holds with no user input. -/
theorem c10_initial_delivery_address (lastOrderNumber : Option String) (now : String) :
    (initialFormData lastOrderNumber now).deliveryAddress = "Av. Camilo Henríquez 3692" ∧
    (initialFormData lastOrderNumber now).deliveryAddress ≠ "" := by
  refine ⟨rfl, ?_⟩
  intro hcontra
  have hlit : ("Av. Camilo Henríquez 3692" : String) = "" := hcontra
  exact absurd hlit (by decide)

theorem c10_initial_delivery_address_witness :
    (initialFormData none "t0").deliveryAddress = "Av. Camilo Henríquez 3692" ∧
    (initialFormData none "t0").deliveryAddress ≠ "" :=
  c10_initial_delivery_address none "t0"

end OrderForm
